import Mathlib

/-!
Shallow embedding of two fragments of the imodeljs repository slice:

* `IModelSession` (src/unnamed/part_000): a test helper that resolves a
  project/context id and an iModel id — optionally via by-name remote
  lookups — and lazily opens and caches a remote briefcase connection.

* `MessageCenterField` (src/ui/framework/src/ui-framework/statusfields/
  MessageCenter.tsx): a status-bar React component that mirrors
  `MessageManager.messages` into a rendered list, filtered by the active
  tab, and toggles its popup panel via the `onOpenWidget` callback.

JavaScript conventions used in the embedding: a possibly-undefined string
is `Option String` (`none` = `undefined`); interpolating such a value into
a template literal goes through `jsStr`, which renders `undefined` the way
JavaScript does; a thrown exception is the `Except.error` branch carrying
the error `message` string.
-/

/-- JavaScript template-literal coercion of a possibly-undefined string:
`undefined` prints as "undefined", a string prints as itself.  Also used
for the non-null assertion `x!`, which at runtime passes the value through
(the subsequent uses of the value here are all string-contexts). -/
def jsStr (o : Option String) : String :=
  match o with
  | some s => s
  | none => "undefined"

/-- The fields of `IModelData` (from common/Settings) that
`IModelSession.create` reads. -/
structure IModelData where
  useProjectName : Bool
  projectName : Option String
  projectId : Option String
  useName : Bool
  name : Option String
  id : Option String
  changeSetId : Option String
  deriving DecidableEq, Repr

/-- A project instance as returned by the context-registry lookup; only its
`wsgId` is read. -/
structure Project where
  wsgId : String
  deriving DecidableEq, Repr

/-- An iModel instance as returned by the hub query; only its `wsgId` is
read. -/
structure HubIModel where
  wsgId : String
  deriving DecidableEq, Repr

/-- An opened remote briefcase connection, opaque to the code under study. -/
structure IModelConnection where
  connId : Nat
  deriving DecidableEq, Repr

/-- The remote services the session helper calls, as oracles:
a directory of projects keyed by name, the by-name iModel query of the hub
(whose result the code checks against `undefined` and against the empty
list), and `RemoteBriefcaseConnection.open`, which either resolves to a
connection or rejects with an error message. -/
structure RemoteEnv where
  projects : List (String × String)
  imodels : String → String → Option (List HubIModel)
  remoteOpen : String → String → Except String IModelConnection

/-- Modelled from the spec: `ContextRegistryClient.getProject` is
repository code that is not under src/.  Per the spec ("surfacing a
descriptive failure when a named remote lookup yields no result"), a
by-name project lookup that finds no project throws an error naming the
missing project; otherwise it resolves to the project instance. -/
def RemoteEnv.getProject (env : RemoteEnv) (name : String) : Except String Project :=
  match env.projects.lookup name with
  | some wsgId => Except.ok { wsgId := wsgId }
  | none => Except.error ("Project " ++ name ++ " was not found")

/-- The session handle: two string identifiers plus the lazily-created
connection (`_iModel`, `none` while still undefined). -/
structure IModelSession where
  contextId : String
  iModelId : String
  _iModel : Option IModelConnection
  deriving DecidableEq, Repr

namespace IModelSession

/-- First half of `IModelSession.create`: turn the project name into an id.
When `useProjectName` is set, query the context registry by name and take
the `wsgId` of the project; otherwise use `iModelData.projectId!`. -/
def resolveContextId (env : RemoteEnv) (iModelData : IModelData) : Except String String :=
  if iModelData.useProjectName then
    match env.getProject (jsStr iModelData.projectName) with
    | Except.ok project => Except.ok project.wsgId
    | Except.error e => Except.error e
  else
    Except.ok (jsStr iModelData.projectId)

/-- Second half of `IModelSession.create`: when `useName` is set, run the
by-name query of the hub; if it yields `undefined` or an empty list, throw
`The iModel ${name} does not exist in project ${contextId}.`, else take the
`wsgId` of the first result.  Otherwise use `iModelData.id!`. -/
def resolveIModelId (env : RemoteEnv) (iModelData : IModelData) (contextId : String) :
    Except String String :=
  if iModelData.useName then
    match env.imodels contextId (jsStr iModelData.name) with
    | none =>
        Except.error ("The iModel " ++ jsStr iModelData.name ++ " does not exist in project "
          ++ contextId ++ ".")
    | some [] =>
        Except.error ("The iModel " ++ jsStr iModelData.name ++ " does not exist in project "
          ++ contextId ++ ".")
    | some (first :: _) => Except.ok first.wsgId
  else
    Except.ok (jsStr iModelData.id)

/-- Embeds `IModelSession.create`: resolve the two identifiers (propagating any
thrown error) and construct the session with no connection cached yet. -/
def create (env : RemoteEnv) (iModelData : IModelData) : Except String IModelSession := do
  let contextId ← resolveContextId env iModelData
  let imodelId ← resolveIModelId env iModelData contextId
  pure { contextId := contextId, iModelId := imodelId, _iModel := none }

/-- Embeds `IModelSession.open`, state-passing: attempt
`RemoteBriefcaseConnection.open(this.contextId, this.iModelId)`; on success
assign `this._iModel` and return it, on failure leave the session as it was
and throw `Failed to open test iModel. Error: ${e.message}`. -/
def openConn (s : IModelSession) (env : RemoteEnv) :
    Except String IModelConnection × IModelSession :=
  match env.remoteOpen s.contextId s.iModelId with
  | Except.ok conn => (Except.ok conn, { s with _iModel := some conn })
  | Except.error e =>
      (Except.error ("Failed to open test iModel. Error: " ++ e), s)

/-- Embeds `IModelSession.getConnection`, state-passing: return the cached
`_iModel` when defined, otherwise call `open`. -/
def getConnection (s : IModelSession) (env : RemoteEnv) :
    Except String IModelConnection × IModelSession :=
  match s._iModel with
  | none => s.openConn env
  | some conn => (Except.ok conn, s)

end IModelSession

/-- The `OutputMessagePriority` enum from imodeljs-frontend, as read by the message
center (only equality with `Error` and `Fatal` matters). -/
inductive OutputMessagePriority where
  | None
  | Error
  | Warning
  | Info
  | Debug
  | Fatal
  deriving DecidableEq, Repr

/-- The fields of `NotifyMessageDetails` the message center reads. -/
structure NotifyMessageDetails where
  priority : OutputMessagePriority
  briefMessage : String
  detailedMessage : Option String
  deriving DecidableEq, Repr

/-- The [[MessageCenterField]] active tab. -/
inductive MessageCenterActiveTab where
  | AllMessages
  | Problems
  deriving DecidableEq, Repr

/-- A rendered `MessageCenterMessage` row, keeping the data the JSX shows:
its `key` (the forEach index) and the message details it displays. -/
structure MessageRow where
  key : Nat
  details : NotifyMessageDetails
  deriving DecidableEq, Repr

namespace MessageCenterField

/-- Embeds `MessageCenterField.isProblemStatus`: true exactly for the `Error` and
`Fatal` priorities. -/
def isProblemStatus (priority : OutputMessagePriority) : Bool :=
  if priority == OutputMessagePriority.Error || priority == OutputMessagePriority.Fatal then
    true
  else
    false

/-- Embeds `MessageManager.messages.slice(0)`: a fresh copy of the manager
array; the later in-place `reverse()` therefore acts on the copy only, so
the array component of the manager of the state is returned untouched. -/
def sliceCopy (l : List NotifyMessageDetails) : List NotifyMessageDetails :=
  l.drop 0

/-- Embeds `MessageCenterField.getMessages`, state-passing over the manager
message list: copy it, reverse the copy, then walk it with `forEach`,
pushing a row (keyed by the index) for each message that passes the
active-tab predicate.  Returns the rows together with the manager list,
which no step of the method mutates. -/
def getMessages (activeTab : MessageCenterActiveTab)
    (managerMessages : List NotifyMessageDetails) :
    List MessageRow × List NotifyMessageDetails :=
  let messages := (sliceCopy managerMessages).reverse
  let tabRows := (messages.enum.foldl
    (fun rows di =>
      if (activeTab == MessageCenterActiveTab.AllMessages) || isProblemStatus di.2.priority then
        rows ++ [{ key := di.1, details := di.2 }]
      else
        rows) [])
  (tabRows, managerMessages)

/-- Embeds `MessageCenterField._handleMessageIndicatorClick`: compute `isOpen`
from `props.openWidget === this._className` and request the opposite state
through `setOpenWidget` — `null` when open, the class name when closed.
The returned value is the `StatusBarFieldId` handed to the `onOpenWidget`
callback. -/
def handleMessageIndicatorClick (className : String) (openWidget : Option String) :
    Option String :=
  let isOpen := openWidget == some className
  if isOpen then none else some className

/-- The open flag of the panel, as `render` computes it for `FooterPopup`:
`props.openWidget === this._className`. -/
def isPanelOpen (className : String) (openWidget : Option String) : Bool :=
  openWidget == some className

end MessageCenterField

/-- The state the `messageCount` invariant talks about: the manager
message list together with the component `messageCount` state field. -/
structure MsgCenterSim where
  managerMessages : List NotifyMessageDetails
  messageCount : Nat
  deriving DecidableEq, Repr

namespace MessageCenterField

/-- The initial component state: `messageCount` starts at
`MessageManager.messages.length`. -/
def initSim (managerMessages : List NotifyMessageDetails) : MsgCenterSim :=
  { managerMessages := managerMessages, messageCount := managerMessages.length }

/-- Embeds `MessageCenterField._handleMessageAddedEvent`: set `messageCount` to
the current `messages.length` of the manager. -/
def handleMessageAddedEvent (s : MsgCenterSim) : MsgCenterSim :=
  { s with messageCount := s.managerMessages.length }

/-- One delivered message-added event: the manager list has changed to
`newMessages` (however `MessageManager` changed it), and the mounted
handler of the component then runs. -/
def messageAddedStep (s : MsgCenterSim) (newMessages : List NotifyMessageDetails) :
    MsgCenterSim :=
  handleMessageAddedEvent { s with managerMessages := newMessages }

/-- Modelled from the spec: `BeUiEvent.addListener` (bentleyjs-core, not
under src/) registers one more occurrence of the handler on the listener list of the
event. -/
def addListener (listeners : List Nat) (handler : Nat) : List Nat :=
  listeners ++ [handler]

/-- Modelled from the spec: `BeUiEvent.removeListener` (bentleyjs-core,
not under src/) removes one registration of the given handler from the listener
list of the event. -/
def removeListener (listeners : List Nat) (handler : Nat) : List Nat :=
  listeners.erase handler

/-- A mounted `MessageCenterField` instance; `_handleMessageAddedEvent` is
a per-instance class-field arrow function, so the instance carries the one
reference both lifecycle hooks use. -/
structure FieldInstance where
  handleMessageAddedEventRef : Nat
  deriving DecidableEq, Repr

/-- Embeds `componentDidMount`: add `this._handleMessageAddedEvent` to
`MessageManager.onMessageAddedEvent`. -/
def componentDidMount (inst : FieldInstance) (listeners : List Nat) : List Nat :=
  addListener listeners inst.handleMessageAddedEventRef

/-- Embeds `componentWillUnmount`: remove `this._handleMessageAddedEvent` from
`MessageManager.onMessageAddedEvent`. -/
def componentWillUnmount (inst : FieldInstance) (listeners : List Nat) : List Nat :=
  removeListener listeners inst.handleMessageAddedEventRef

end MessageCenterField

/-- A concrete iModel instance used to exercise the definitions. -/
def sampleIModel : HubIModel :=
  { wsgId := "im-wsg-1" }

/-- A concrete environment in which every lookup succeeds. -/
def envFound : RemoteEnv :=
  { projects := [("Alpha", "ctx-1")]
    imodels := fun _ _ => some [sampleIModel]
    remoteOpen := fun _ _ => Except.ok { connId := 7 } }

/-- A concrete environment in which every lookup comes back empty and the
remote open rejects. -/
def envMissing : RemoteEnv :=
  { projects := []
    imodels := fun _ _ => some []
    remoteOpen := fun _ _ => Except.error "handshake refused" }

/-- A concrete `IModelData` that asks for both by-name lookups. -/
def sampleData : IModelData :=
  { useProjectName := true
    projectName := some "Alpha"
    projectId := some "pid-0"
    useName := true
    name := some "Beta"
    id := some "mid-0"
    changeSetId := none }

/-- The session that `create envFound sampleData` produces. -/
def sampleSession : IModelSession :=
  { contextId := "ctx-1", iModelId := "im-wsg-1", _iModel := none }

/-! ## Theorems -/

/-- Computation rule: binding a thrown `Except` error short-circuits. -/
theorem exceptBind_error {e : String} {f : String → Except String IModelSession} :
    (Except.error e : Except String String) >>= f = Except.error e := rfl

/-- Computation rule: binding a successful `Except` passes the value on. -/
theorem exceptBind_ok {a : String} {f : String → Except String IModelSession} :
    (Except.ok a : Except String String) >>= f = f a := rfl

/-- Characterization of `create` as the two-stage match it elaborates to. -/
theorem create_eq (env : RemoteEnv) (d : IModelData) :
    IModelSession.create env d =
      match IModelSession.resolveContextId env d with
      | Except.error e => Except.error e
      | Except.ok cid =>
        match IModelSession.resolveIModelId env d cid with
        | Except.error e => Except.error e
        | Except.ok mid =>
            Except.ok { contextId := cid, iModelId := mid, _iModel := none } := by
  unfold IModelSession.create
  cases IModelSession.resolveContextId env d with
  | error e => rfl
  | ok cid =>
      show IModelSession.resolveIModelId env d cid >>=
          (fun imodelId =>
            (pure { contextId := cid, iModelId := imodelId, _iModel := none } :
              Except String IModelSession)) =
        match IModelSession.resolveIModelId env d cid with
        | Except.error e => Except.error e
        | Except.ok mid =>
            Except.ok { contextId := cid, iModelId := mid, _iModel := none }
      cases IModelSession.resolveIModelId env d cid with
      | error e => rfl
      | ok mid => rfl

/-- C1: whenever a by-name lookup yields no result — the project lookup
when `useProjectName` is set, or the iModel query when `useName` is set and
the query returns `undefined` or an empty list — `IModelSession.create`
throws an error naming the missing entity instead of returning a
session. -/
theorem create_empty_lookup_throws (env : RemoteEnv) (d : IModelData) :
    (d.useProjectName = true →
      env.projects.lookup (jsStr d.projectName) = none →
      IModelSession.create env d =
        Except.error ("Project " ++ jsStr d.projectName ++ " was not found"))
  ∧ (∀ cid, d.useName = true →
      IModelSession.resolveContextId env d = Except.ok cid →
      (env.imodels cid (jsStr d.name) = none ∨ env.imodels cid (jsStr d.name) = some []) →
      IModelSession.create env d =
        Except.error ("The iModel " ++ jsStr d.name ++ " does not exist in project "
          ++ cid ++ ".")) := by
  constructor
  · intro hup hnone
    simp [IModelSession.create, IModelSession.resolveContextId, RemoteEnv.getProject,
      hup, hnone, exceptBind_error]
  · intro cid hun hctx hq
    rcases hq with hq | hq <;>
      simp [IModelSession.create, hctx, IModelSession.resolveIModelId, hun, hq,
        exceptBind_ok]

/-- Witness for C1 at a concrete input: in `envMissing` the project
directory is empty, so `create` fails with the descriptive message. -/
theorem create_empty_lookup_throws_witness :
    IModelSession.create envMissing sampleData =
      Except.error ("Project " ++ jsStr sampleData.projectName ++ " was not found") :=
  (create_empty_lookup_throws envMissing sampleData).1 rfl rfl

/-- C2: if `RemoteBriefcaseConnection.open` rejects with error `e`,
`IModelSession.open` throws `Failed to open test iModel. Error: `
followed by `e.message`; if it resolves, `open` throws nothing and returns
the opened connection (caching it). -/
theorem open_wraps_failure (env : RemoteEnv) (s : IModelSession) :
    (∀ e, env.remoteOpen s.contextId s.iModelId = Except.error e →
      s.openConn env =
        (Except.error ("Failed to open test iModel. Error: " ++ e), s))
  ∧ (∀ c, env.remoteOpen s.contextId s.iModelId = Except.ok c →
      s.openConn env = (Except.ok c, { s with _iModel := some c })) := by
  constructor
  · intro e he
    simp [IModelSession.openConn, he]
  · intro c hc
    simp [IModelSession.openConn, hc]

/-- Witness for C2 at a concrete input: `envMissing.remoteOpen` rejects
with "handshake refused" and `open` wraps that message. -/
theorem open_wraps_failure_witness :
    sampleSession.openConn envMissing =
      (Except.error ("Failed to open test iModel. Error: " ++ "handshake refused"),
        sampleSession) :=
  (open_wraps_failure envMissing sampleSession).1 "handshake refused" rfl

/-- C3: the connection is lazily created and memoized — `getConnection`
returns the cached `_iModel` untouched (for any remote environment, hence
without a remote open) when one is cached, performs `open` exactly when
`_iModel` is undefined, and after one successful `open` every later
`getConnection` returns that same cached connection with the state
unchanged, again independently of the environment. -/
theorem getConnection_lazy_memoized :
    (∀ (s : IModelSession) (env : RemoteEnv) (c : IModelConnection),
      s._iModel = some c → s.getConnection env = (Except.ok c, s))
  ∧ (∀ (s : IModelSession) (env : RemoteEnv),
      s._iModel = none → s.getConnection env = s.openConn env)
  ∧ (∀ (s s1 : IModelSession) (env env1 : RemoteEnv) (c : IModelConnection),
      s.openConn env = (Except.ok c, s1) →
      s1.getConnection env1 = (Except.ok c, s1)) := by
  refine ⟨?_, ?_, ?_⟩
  · intro s env c h
    simp [IModelSession.getConnection, h]
  · intro s env h
    simp [IModelSession.getConnection, h]
  · intro s s1 env env1 c h
    unfold IModelSession.openConn at h
    cases henv : env.remoteOpen s.contextId s.iModelId with
    | ok conn =>
        rw [henv] at h
        obtain ⟨h1, h2⟩ := Prod.mk.injEq .. ▸ h
        obtain rfl : conn = c := by
          injection h1
        subst h2
        simp [IModelSession.getConnection]
    | error e =>
        rw [henv] at h
        obtain ⟨h1, _⟩ := Prod.mk.injEq .. ▸ h
        exact absurd h1 (by simp)

/-- Witness for C3 at a concrete input: after opening against `envFound`,
`getConnection` run against the dead `envMissing` still returns the cached
connection, so no second remote open happens. -/
theorem getConnection_lazy_memoized_witness :
    ({ sampleSession with _iModel := some { connId := 7 } } : IModelSession).getConnection
        envMissing =
      (Except.ok { connId := 7 },
        { sampleSession with _iModel := some { connId := 7 } }) :=
  getConnection_lazy_memoized.2.2 sampleSession
    { sampleSession with _iModel := some { connId := 7 } }
    envFound envMissing { connId := 7 } rfl

/-- C10: `open` and `getConnection` modify only `_iModel`: whatever the
environment does, the two identifier fields of the resulting session state
equal the ones before the call. -/
theorem open_getConnection_frame (s : IModelSession) (env : RemoteEnv) :
    ((s.openConn env).2.contextId = s.contextId
      ∧ (s.openConn env).2.iModelId = s.iModelId)
  ∧ ((s.getConnection env).2.contextId = s.contextId
      ∧ (s.getConnection env).2.iModelId = s.iModelId) := by
  have hopen : (s.openConn env).2.contextId = s.contextId
      ∧ (s.openConn env).2.iModelId = s.iModelId := by
    unfold IModelSession.openConn
    cases env.remoteOpen s.contextId s.iModelId <;> simp
  refine ⟨hopen, ?_⟩
  unfold IModelSession.getConnection
  cases h : s._iModel with
  | none => exact hopen
  | some conn => simp

/-- C4: a successful `create` stores exactly the resolved identifiers:
`contextId` is `iModelData.projectId` when `useProjectName` is false and
otherwise the `wsgId` resolved by the project-name lookup; `iModelId` is
`iModelData.id` when `useName` is false and otherwise the `wsgId` of the
first iModel the by-name query returned. -/
theorem create_stores_resolved_ids (env : RemoteEnv) (d : IModelData)
    (s : IModelSession) (h : IModelSession.create env d = Except.ok s) :
    (d.useProjectName = false → ∀ pid, d.projectId = some pid → s.contextId = pid)
  ∧ (d.useProjectName = true →
      ∃ p, env.getProject (jsStr d.projectName) = Except.ok p ∧ s.contextId = p.wsgId)
  ∧ (d.useName = false → ∀ mid, d.id = some mid → s.iModelId = mid)
  ∧ (d.useName = true →
      ∃ first rest, env.imodels s.contextId (jsStr d.name) = some (first :: rest)
        ∧ s.iModelId = first.wsgId) := by
  rw [create_eq] at h
  cases hctx : IModelSession.resolveContextId env d with
  | error e =>
      rw [hctx] at h
      exact Except.noConfusion h
  | ok cid =>
      rw [hctx] at h
      have h2 : (match IModelSession.resolveIModelId env d cid with
          | Except.error e => (Except.error e : Except String IModelSession)
          | Except.ok mid =>
              Except.ok { contextId := cid, iModelId := mid, _iModel := none })
            = Except.ok s := h
      cases hmid : IModelSession.resolveIModelId env d cid with
      | error e =>
          rw [hmid] at h2
          exact Except.noConfusion h2
      | ok mid =>
          rw [hmid] at h2
          have h3 : ({ contextId := cid, iModelId := mid, _iModel := none } :
              IModelSession) = s := Except.ok.inj h2
          subst h3
          refine ⟨?_, ?_, ?_, ?_⟩
          · intro hup pid hpid
            unfold IModelSession.resolveContextId at hctx
            rw [hup] at hctx
            simp [hpid, jsStr] at hctx
            simpa using hctx.symm
          · intro hup
            unfold IModelSession.resolveContextId at hctx
            simp only [hup, if_true] at hctx
            cases hp : env.getProject (jsStr d.projectName) with
            | ok p =>
                rw [hp] at hctx
                simp only [Except.ok.injEq] at hctx
                exact ⟨p, rfl, hctx.symm⟩
            | error e =>
                rw [hp] at hctx
                exact absurd hctx (by simp)
          · intro hun mid0 hmid0
            unfold IModelSession.resolveIModelId at hmid
            rw [hun] at hmid
            simp [hmid0, jsStr] at hmid
            simpa using hmid.symm
          · intro hun
            unfold IModelSession.resolveIModelId at hmid
            simp only [hun, if_true] at hmid
            cases hq : env.imodels cid (jsStr d.name) with
            | none =>
                rw [hq] at hmid
                exact absurd hmid (by simp)
            | some l =>
                cases l with
                | nil =>
                    rw [hq] at hmid
                    exact absurd hmid (by simp)
                | cons first rest =>
                    rw [hq] at hmid
                    simp only [Except.ok.injEq] at hmid
                    exact ⟨first, rest, rfl, hmid.symm⟩

/-- Witness for C4 at a concrete input: `create envFound sampleData`
succeeds with `sampleSession`, whose `contextId` is the `wsgId` the
project-name lookup resolved. -/
theorem create_stores_resolved_ids_witness :
    ∃ p, envFound.getProject (jsStr sampleData.projectName) = Except.ok p
      ∧ sampleSession.contextId = p.wsgId :=
  (create_stores_resolved_ids envFound sampleData sampleSession rfl).2.1 rfl

/-- Unrolling lemma: a fold that pushes `f d` whenever `p d` holds equals
the accumulator followed by the filtered, mapped list. -/
theorem foldl_pushIf_eq {α β : Type} (p : α → Bool) (f : α → β) :
    ∀ (l : List α) (acc : List β),
      l.foldl (fun rows d => if p d then rows ++ [f d] else rows) acc
        = acc ++ (l.filter p).map f := by
  intro l
  induction l with
  | nil =>
      intro acc
      simp
  | cons a t ih =>
      intro acc
      by_cases h : p a = true
      · simp [List.foldl_cons, h, ih, List.filter_cons]
      · simp [List.foldl_cons, h, ih, List.filter_cons]

/-- Filtering an enumerated list on the element and projecting the element
back out is the same as filtering the list itself. -/
theorem enumFrom_filter_map_snd {α : Type} (p : α → Bool) :
    ∀ (n : Nat) (l : List α),
      ((List.enumFrom n l).filter fun di => p di.2).map Prod.snd = l.filter p := by
  intro n l
  induction l generalizing n with
  | nil => rfl
  | cons a t ih =>
      by_cases h : p a = true
      · simp [List.enumFrom, List.filter_cons, h, ih]
      · simp [List.enumFrom, List.filter_cons, h, ih]

/-- The details shown by `getMessages` are the reversed manager list
filtered by the active-tab predicate. -/
theorem getMessages_rows_details (tab : MessageCenterActiveTab)
    (mgr : List NotifyMessageDetails) :
    (MessageCenterField.getMessages tab mgr).1.map MessageRow.details
      = mgr.reverse.filter
          (fun d => (tab == MessageCenterActiveTab.AllMessages)
            || MessageCenterField.isProblemStatus d.priority) := by
  unfold MessageCenterField.getMessages MessageCenterField.sliceCopy
  rw [List.drop_zero]
  show List.map MessageRow.details
      (List.foldl
        (fun rows di =>
          if (tab == MessageCenterActiveTab.AllMessages)
              || MessageCenterField.isProblemStatus di.2.priority then
            rows ++ [{ key := di.1, details := di.2 }]
          else rows)
        [] mgr.reverse.enum)
    = mgr.reverse.filter
        (fun d => (tab == MessageCenterActiveTab.AllMessages)
          || MessageCenterField.isProblemStatus d.priority)
  rw [foldl_pushIf_eq
    (fun di : Nat × NotifyMessageDetails =>
      (tab == MessageCenterActiveTab.AllMessages)
        || MessageCenterField.isProblemStatus di.2.priority)
    (fun di => ({ key := di.1, details := di.2 } : MessageRow))]
  simp only [List.nil_append, List.map_map]
  exact enumFrom_filter_map_snd
    (fun d => (tab == MessageCenterActiveTab.AllMessages)
      || MessageCenterField.isProblemStatus d.priority) 0 mgr.reverse

/-- C5: `getMessages` renders a row for a message exactly when the active
tab is `AllMessages` or the priority of the message is `Error` or `Fatal`, and
`isProblemStatus` returns true exactly for those two priorities. -/
theorem message_rows_filter_predicate (tab : MessageCenterActiveTab)
    (mgr : List NotifyMessageDetails) :
    (∀ d : NotifyMessageDetails,
      d ∈ (MessageCenterField.getMessages tab mgr).1.map MessageRow.details ↔
        d ∈ mgr ∧ (tab = MessageCenterActiveTab.AllMessages
          ∨ MessageCenterField.isProblemStatus d.priority = true))
  ∧ (∀ p, MessageCenterField.isProblemStatus p = true ↔
      (p = OutputMessagePriority.Error ∨ p = OutputMessagePriority.Fatal)) := by
  constructor
  · intro d
    rw [getMessages_rows_details, List.mem_filter, List.mem_reverse]
    simp [Bool.or_eq_true, beq_iff_eq]
  · intro p
    cases p <;> decide

/-- C8: `getMessages` lists the (filtered) messages most-recent-first —
the row details are the reverse of the filtered manager list, and with the
`AllMessages` tab exactly the reversed manager list — while the list component of the
manager comes back from the call unchanged. -/
theorem getMessages_reverse_of_copy (tab : MessageCenterActiveTab)
    (mgr : List NotifyMessageDetails) :
    ((MessageCenterField.getMessages tab mgr).2 = mgr)
  ∧ ((MessageCenterField.getMessages tab mgr).1.map MessageRow.details
      = (mgr.filter
          (fun d => (tab == MessageCenterActiveTab.AllMessages)
            || MessageCenterField.isProblemStatus d.priority)).reverse)
  ∧ ((MessageCenterField.getMessages MessageCenterActiveTab.AllMessages mgr).1.map
        MessageRow.details = mgr.reverse) := by
  refine ⟨rfl, ?_, ?_⟩
  · rw [getMessages_rows_details, ← List.filter_reverse]
  · rw [getMessages_rows_details]
    simp

/-- C6: clicking the indicator requests `null` when the panel is open
(`props.openWidget` equals the class name) and the class name otherwise,
so two consecutive clicks restore the starting open/closed state. -/
theorem indicator_click_toggles (cn : String) (ow : Option String) :
    (ow = some cn → MessageCenterField.handleMessageIndicatorClick cn ow = none)
  ∧ (ow ≠ some cn → MessageCenterField.handleMessageIndicatorClick cn ow = some cn)
  ∧ (MessageCenterField.isPanelOpen cn
      (MessageCenterField.handleMessageIndicatorClick cn
        (MessageCenterField.handleMessageIndicatorClick cn ow))
    = MessageCenterField.isPanelOpen cn ow) := by
  refine ⟨?_, ?_, ?_⟩
  · intro h
    simp [MessageCenterField.handleMessageIndicatorClick, h]
  · intro h
    simp [MessageCenterField.handleMessageIndicatorClick, h]
  · by_cases h : ow = some cn <;>
      simp [MessageCenterField.handleMessageIndicatorClick,
        MessageCenterField.isPanelOpen, h]

/-- Witness for C6 at a concrete input: a click with the panel open
requests `null`; a click with it closed requests the class name. -/
theorem indicator_click_toggles_witness :
    MessageCenterField.handleMessageIndicatorClick "MessageCenterField"
        (some "MessageCenterField") = none
    ∧ MessageCenterField.handleMessageIndicatorClick "MessageCenterField" none
        = some "MessageCenterField" :=
  ⟨(indicator_click_toggles "MessageCenterField" (some "MessageCenterField")).1 rfl,
    (indicator_click_toggles "MessageCenterField" none).2.1 (by simp)⟩

/-- C7: `messageCount` starts at `MessageManager.messages.length` and every
delivered message-added event re-establishes
`messageCount = MessageManager.messages.length`, so the invariant holds
after any trace of events. -/
theorem messageCount_stays_synchronized (mgr0 : List NotifyMessageDetails)
    (trace : List (List NotifyMessageDetails)) :
    ((MessageCenterField.initSim mgr0).messageCount
        = (MessageCenterField.initSim mgr0).managerMessages.length)
  ∧ (∀ (s : MsgCenterSim) (newMessages : List NotifyMessageDetails),
      (MessageCenterField.messageAddedStep s newMessages).messageCount
        = (MessageCenterField.messageAddedStep s newMessages).managerMessages.length)
  ∧ ((trace.foldl MessageCenterField.messageAddedStep
        (MessageCenterField.initSim mgr0)).messageCount
      = (trace.foldl MessageCenterField.messageAddedStep
          (MessageCenterField.initSim mgr0)).managerMessages.length) := by
  refine ⟨rfl, fun s newMessages => rfl, ?_⟩
  have aux : ∀ (tr : List (List NotifyMessageDetails)) (s : MsgCenterSim),
      s.messageCount = s.managerMessages.length →
      (tr.foldl MessageCenterField.messageAddedStep s).messageCount
        = (tr.foldl MessageCenterField.messageAddedStep s).managerMessages.length := by
    intro tr
    induction tr with
    | nil => intro s hs; exact hs
    | cons m t ih => intro s hs; exact ih _ rfl
  exact aux trace _ rfl

/-- C9: mounting adds and unmounting removes the one per-instance handler
reference, so a mount/unmount round trip leaves the listener
multiset unchanged — and the listener list itself unchanged whenever the
handler was not already registered. -/
theorem mount_unmount_listener_roundtrip (inst : MessageCenterField.FieldInstance)
    (listeners : List Nat) :
    (MessageCenterField.componentWillUnmount inst
        (MessageCenterField.componentDidMount inst listeners)).Perm listeners
  ∧ (inst.handleMessageAddedEventRef ∉ listeners →
      MessageCenterField.componentWillUnmount inst
        (MessageCenterField.componentDidMount inst listeners) = listeners) := by
  constructor
  · unfold MessageCenterField.componentWillUnmount MessageCenterField.componentDidMount
      MessageCenterField.addListener MessageCenterField.removeListener
    by_cases h : inst.handleMessageAddedEventRef ∈ listeners
    · rw [List.erase_append_left _ h]
      exact (List.perm_append_singleton _ _).trans (List.perm_cons_erase h).symm
    · rw [List.erase_append_right _ h]
      simp
  · intro h
    unfold MessageCenterField.componentWillUnmount MessageCenterField.componentDidMount
      MessageCenterField.addListener MessageCenterField.removeListener
    rw [List.erase_append_right _ h]
    simp

/-- Witness for C9 at a concrete input: handler 5 is not registered in
`[1, 2]`, and the mount/unmount round trip returns exactly `[1, 2]`. -/
theorem mount_unmount_listener_roundtrip_witness :
    MessageCenterField.componentWillUnmount { handleMessageAddedEventRef := 5 }
      (MessageCenterField.componentDidMount { handleMessageAddedEventRef := 5 } [1, 2])
      = [1, 2] :=
  (mount_unmount_listener_roundtrip { handleMessageAddedEventRef := 5 } [1, 2]).2
    (by decide)
